import Mathlib
/-!
Verification development for the ApiHydra repository (client-side request
multiplexer for the 42 intra API). The definitions below are a shallow
embedding of the Python sources `ApiHydra.py`, `FtApiHydra.py` and
`main.py`: pure data manipulation is translated to Lean functions, the
stateful loops become explicit state passing, fallible Python code
(subscript errors, attribute errors, raised exceptions) returns
`Except`/`Option`, and the observable effects that the theorems need
(log calls, thread joins, sleeps) are reified as explicit action lists.
-/

namespace ApiHydra

/-- Scalar Python values appearing in ApiHydra app records and kwargs.
App records in `ApiHydra.py` hold strings, ints, None (for
`next_secret`) and lists of strings (for `scopes`). -/
inductive PyVal where
  | vnone : PyVal
  | vbool : Bool → PyVal
  | vint : Int → PyVal
  | vstr : String → PyVal
  | vlist : List String → PyVal
deriving DecidableEq, Repr

/-- A Python dict with string keys and scalar values, modelled as an
association list in insertion order (Python dicts preserve insertion
order). -/
abbrev PyDict := List (String × PyVal)

/-- The credential fleet `self.apps`: a dict from app id to app record,
in insertion order. -/
abbrev Fleet := List (String × PyDict)

/-- Python `d.get(k, dflt)`. -/
def pyGet (d : PyDict) (k : String) (dflt : PyVal) : PyVal :=
  (d.lookup k).getD dflt

/-- Python `d[k]`: raises `KeyError` when the key is absent. -/
def pySubscript (d : PyDict) (k : String) : Except String PyVal :=
  match d.lookup k with
  | some v => Except.ok v
  | none => Except.error ("KeyError: " ++ k)

/-- Python truthiness of a scalar value (used by `if not uid:` etc.). -/
def truthy : PyVal → Bool
  | PyVal.vnone => false
  | PyVal.vbool b => b
  | PyVal.vint n => n ≠ 0
  | PyVal.vstr s => s ≠ ""
  | PyVal.vlist xs => xs ≠ []

/-- Python `int(x)` restricted to the values it receives in
`refresh_tokens` (an int from a JSON body); other scalars raise. -/
def pyToInt : PyVal → Except String Int
  | PyVal.vint n => Except.ok n
  | _ => Except.error "TypeError: int() argument"

/-- Python `str` content of `d.get(k, c)` when the stored value is a
string, as in `app.get(id, ...)`; non-string values are rendered empty
(the records involved always store strings there). -/
def pyGetStr (d : PyDict) (k : String) : String :=
  match pyGet d k (PyVal.vstr "") with
  | PyVal.vstr s => s
  | _ => ""

/-! ## Rate pacer (`ApiHydra.get` / `ApiHydra.post`, lines 322-350)

After starting the worker thread, the submit path computes
`delay = (1 / self.requests_per_second) / len(self.apps)` and then
executes `time.sleep(min(delay, self.min_request_delay))`.
-/

/-- Sleep duration of the submit path as implemented:
`min((1 / requests_per_second) / N, min_request_delay)`
(`ApiHydra.py` lines 334-335 and 349-350). -/
def submit_sleep (requests_per_second min_request_delay : ℚ) (fleet_size : ℕ) : ℚ :=
  min ((1 / requests_per_second) / (fleet_size : ℚ)) min_request_delay

/-- Sleep duration as the specification words it: the maximum of the
`min_request_delay` floor and `1/(requests_per_second * N)`. Stated from
the spec for comparison with `submit_sleep`. -/
def submit_sleep_spec (requests_per_second min_request_delay : ℚ) (fleet_size : ℕ) : ℚ :=
  max min_request_delay (1 / (requests_per_second * (fleet_size : ℚ)))

/-! ## Worker retry loop (`ApiHydra._get` / `ApiHydra._post`, lines 219-242 and 263-286)

Both workers run the same loop: while True: if `retries > max_retries`
log data loss and return; send the request; on status 200 deposit the
response and return; otherwise sleep, scale the delay and increment
`retries`. The upstream is modelled as the sequence of status codes the
successive send attempts observe. The loop variable `retries` strictly
increases each iteration and the loop exits as soon as it exceeds
`max_retries`, so `max_retries + 2` iterations of fuel always suffice;
`outOfFuel` is proved unreachable. -/

/-- Outcome of one worker: a deposited response after a number of send
attempts, or a data-loss exit after exhausting the retry budget.
`outOfFuel` is an artefact of the fuelled encoding, proved unreachable. -/
inductive WorkerResult where
  | delivered : ℕ → WorkerResult
  | dataLoss : ℕ → WorkerResult
  | outOfFuel : WorkerResult
deriving DecidableEq, Repr

/-- One iteration structure of the `while True:` retry loop shared by
`_get` and `_post`: `status r` is the HTTP status observed by the
attempt made with `retries = r`. The returned payload counts the send
attempts performed. -/
def worker_go (status : ℕ → ℕ) (max_retries : ℕ) : ℕ → ℕ → WorkerResult
  | _, 0 => WorkerResult.outOfFuel
  | retries, fuel + 1 =>
    if max_retries < retries then WorkerResult.dataLoss retries
    else if status retries = 200 then WorkerResult.delivered (retries + 1)
    else worker_go status max_retries (retries + 1) fuel

/-- The whole retry loop of `_get`/`_post`, starting at `retries = 0`. -/
def worker_run (status : ℕ → ℕ) (max_retries : ℕ) : WorkerResult :=
  worker_go status max_retries 0 (max_retries + 2)

/-- Number of send attempts recorded in a worker outcome. -/
def attemptsOf : WorkerResult → ℕ
  | WorkerResult.delivered a => a
  | WorkerResult.dataLoss a => a
  | WorkerResult.outOfFuel => 0

/-! ## Dispatcher (`ApiHydra.get_next_app`, lines 183-191)

The method executes
`app_id = list(self.apps)[self.app_idx % len(self.apps)]`,
`self.app_idx += 1`, `return self.apps[app_id]`.
Only the key order and the cursor matter for rotation, so the state is
the key list (insertion order of `self.apps`) plus the cursor. The
invariant that the fleet is non-empty when dispatching is an explicit
spec invariant; on an empty fleet the Python code would raise
`ZeroDivisionError`, which the `getD` default never masks because all
theorems assume a non-empty fleet. -/

/-- Rotation state: key list of `self.apps` plus `self.app_idx`. -/
structure DispatchState where
  keys : List String
  app_idx : ℕ
deriving DecidableEq, Repr

/-- One call of `get_next_app`: select the key at `app_idx % len(apps)`
and increment the cursor. -/
def get_next_app (s : DispatchState) : String × DispatchState :=
  (s.keys.getD (s.app_idx % s.keys.length) "", ⟨s.keys, s.app_idx + 1⟩)

/-- The sequence of app keys selected by `K` consecutive `get_next_app`
calls. -/
def runDispatch : DispatchState → ℕ → List String
  | _, 0 => []
  | s, k + 1 => (get_next_app s).1 :: runDispatch (get_next_app s).2 k

/-! ## Credential store persistence (`ApiHydra.serialize` lines 98-113 and
`ApiHydra.deserialize` lines 85-96)

`serialize` executes `json.dump(self.apps, f, indent=4, ensure_ascii=False,
sort_keys=True)`: the JSON text holds exactly the fleet mapping with every
object keys emitted in sorted order (`sort_keys` applies to the outer
dict and to each app record). `deserialize` executes
`self.apps = defaultdict(dict, json.load(f))`: the mapping read back is
exactly the mapping in the file, in file order. Both are modelled at the
level of the JSON data: `dumpFleet` is the mapping written to disk and
`loadFleet` the mapping recovered from it. Python `dict` equality is
insertion-order insensitive at every level, which the theorems express
through the canonical (key-sorted) form and lookups. -/

/-- Linear association lookup, Python dict access order semantics. -/
def alookup {α : Type} (k : String) : List (String × α) → Option α
  | [] => Option.none
  | p :: l => if p.1 = k then Option.some p.2 else alookup k l

/-- Ordering of dict entries by key, as produced by `sort_keys=True`. -/
abbrev keyLe {α : Type} (a b : String × α) : Prop := a.1 ≤ b.1

instance {α : Type} : IsTotal (String × α) (keyLe (α := α)) :=
  ⟨fun a b => le_total a.1 b.1⟩

instance {α : Type} : IsTrans (String × α) (keyLe (α := α)) :=
  ⟨fun _ _ _ h1 h2 => le_trans h1 h2⟩

/-- Stable sort of dict entries by key (the order `json.dump` emits when
`sort_keys=True` is set). -/
def sortByKey {α : Type} (l : List (String × α)) : List (String × α) :=
  l.insertionSort keyLe

/-- App record as written by `serialize`: fields in sorted key order. -/
def dumpRecord (r : PyDict) : PyDict := sortByKey r

/-- One fleet entry as written by `serialize`. -/
def dumpEntry (p : String × PyDict) : String × PyDict := (p.1, dumpRecord p.2)

/-- The fleet mapping contained in the file `serialize` writes. -/
def dumpFleet (fleet : Fleet) : Fleet := sortByKey (fleet.map dumpEntry)

/-- The fleet mapping `deserialize` recovers from a file holding `j`
(`json.load` returns the object as stored; `defaultdict(dict, ...)`
keeps the mapping unchanged). -/
def loadFleet (j : Fleet) : Fleet := j

/-- Saving the credentials file and loading it back. -/
def credentialsRoundTrip (fleet : Fleet) : Fleet := loadFleet (dumpFleet fleet)

/-! ## Token manager (`FtApiHydra.get_token` lines 155-168 and
`FtApiHydra.refresh_tokens` lines 279-296) -/

/-- Upstream reply to the token-endpoint POST for one app: the HTTP
status and the JSON body (a flat object; consulted only on 200). -/
structure TokenEndpointReply where
  status : ℕ
  body : PyDict
deriving Repr

/-- `FtApiHydra.get_token`: on a non-200 status log an error and return
the fallback dict with keys "access_token" (empty) and
"token_expires_in" (-1); on 200 return the JSON body of the reply. -/
def get_token (reply : TokenEndpointReply) : PyDict :=
  if reply.status ≠ 200 then
    [("access_token", PyVal.vstr ""), ("token_expires_in", PyVal.vint (-1))]
  else reply.body

/-- Python `del apps[k]` on the live fleet. -/
def delKey (apps : Fleet) (k : String) : Fleet :=
  apps.filter (fun p => p.1 ≠ k)

/-- Python `d[k] = v` on a dict: overwrite in place, else append. -/
def setKey (d : PyDict) (k : String) (v : PyVal) : PyDict :=
  if (alookup k d).isSome then d.map (fun p => if p.1 = k then (k, v) else p)
  else d ++ [(k, v)]

/-- Python `apps[k][field] = v` where `apps` is a
`defaultdict(dict)`: a missing key spawns a fresh record. -/
def setField (apps : Fleet) (k field : String) (v : PyVal) : Fleet :=
  if (alookup k apps).isSome then
    apps.map (fun p => if p.1 = k then (p.1, setKey p.2 field v) else p)
  else apps ++ [(k, [(field, v)])]

/-- Body of one `refresh_tokens` loop iteration for the snapshot entry
`(app_id, app_creds)`, acting on the live fleet `apps`: delete the app
when uid or secret is missing; otherwise call `get_token` and store the
token fields. The expiry is computed as
`int(time.time()) + int(token_resp[expires_in])`, and the subscript
raises `KeyError` when the dict has no "expires_in" key — which is the
case for the fallback dict of `get_token`, whose key is named
"token_expires_in". -/
def refresh_app (now : Int) (reply : TokenEndpointReply) (app_id : String)
    (app_creds : PyDict) (apps : Fleet) : Except String Fleet :=
  if ¬ truthy (pyGet app_creds "uid" (PyVal.vstr "")) ∨
      ¬ truthy (pyGet app_creds "secret" (PyVal.vstr "")) then
    Except.ok (delKey apps app_id)
  else
    let token_resp := get_token reply
    let access_token := pyGet token_resp "access_token" (PyVal.vstr "")
    match pySubscript token_resp "expires_in" with
    | Except.error e => Except.error e
    | Except.ok ev =>
      match pyToInt ev with
      | Except.error e => Except.error e
      | Except.ok en =>
        Except.ok (setField (setField apps app_id "access_token" access_token)
          app_id "token_expires_in" (PyVal.vint (now + en)))

/-- Loop of `refresh_tokens` over the deep-copied snapshot entries. -/
def refresh_tokens_go (now : Int) (upstream : String → TokenEndpointReply) :
    Fleet → Fleet → Except String Fleet
  | [], apps => Except.ok apps
  | (app_id, creds) :: rest, apps =>
    match refresh_app now (upstream app_id) app_id creds apps with
    | Except.error e => Except.error e
    | Except.ok apps2 => refresh_tokens_go now upstream rest apps2

/-- `FtApiHydra.refresh_tokens`: iterate over a deep-copied snapshot of
`self.apps`, mutating the live fleet. The method also sets
`self.refresh_tokens_flag` to True on entry and to False after the loop;
when an exception escapes the loop, the final assignment never runs. -/
def refresh_tokens (now : Int) (upstream : String → TokenEndpointReply)
    (apps : Fleet) : Except String Fleet :=
  refresh_tokens_go now upstream apps apps

/-! ## Response serialization (`ApiHydra.serialize_responses`, lines 115-156)

The method first builds `serializable_responses`, the list of
`(url, body decoded as utf-8)` pairs. On the primary path (line 128) it
dumps that list as JSON. When opening the primary file raises `IOError`,
the fallback block opens the tmpfs path and — at line 145 — executes
`json.dump(self.apps, ...)`: it dumps the credential fleet, not the
serialized responses. -/

/-- JSON documents, for stating which document each path writes. -/
inductive Json where
  | jnull : Json
  | jbool : Bool → Json
  | jint : Int → Json
  | jstr : String → Json
  | jarr : List Json → Json
  | jobj : List (String × Json) → Json
deriving Repr

/-- JSON image of a scalar app-record value. -/
def pyValToJson : PyVal → Json
  | PyVal.vnone => Json.jnull
  | PyVal.vbool b => Json.jbool b
  | PyVal.vint n => Json.jint n
  | PyVal.vstr s => Json.jstr s
  | PyVal.vlist xs => Json.jarr (xs.map Json.jstr)

/-- Document dumped on the primary path: the array of serialized
`(url, decoded body)` response pairs. -/
def responsesJson (responses : List (String × String)) : Json :=
  Json.jarr (responses.map (fun p => Json.jarr [Json.jstr p.1, Json.jstr p.2]))

/-- Document dumped on the tmpfs fallback path: line 145 passes
`self.apps` to `json.dump`. -/
def appsJson (apps : Fleet) : Json :=
  Json.jobj (apps.map (fun p =>
    (p.1, Json.jobj (p.2.map (fun q => (q.1, pyValToJson q.2))))))

/-- Content written by `serialize_responses` as a function of whether
opening the primary file raises IOError. -/
def serialize_responses_content (primary_open_fails : Bool)
    (responses : List (String × String)) (apps : Fleet) : Json :=
  if primary_open_fails then appsJson apps else responsesJson responses

/-! ## Request-kwarg shaping

Two implementations exist in the sources: the `FtApiHydra` subclass
inside `ApiHydra.py` (lines 420-434) and the standalone
`FtApiHydra.py` one (lines 88-120). -/

/-- Caller-level request kwargs: the headers dict (header name to value)
plus the remaining keyword arguments (url, params, ...). `Option.none`
headers models a caller that passed no headers dict. -/
structure Kwargs where
  headers : Option (List (String × String))
  rest : List (String × PyVal)
deriving DecidableEq, Repr

/-- `FtApiHydra.make_request_kwargs_from_app` as defined inside
`ApiHydra.py` (lines 420-434): read id and token from the app record,
substitute the MISSING_TOKEN placeholder when an identified app has no
token, then assign `kwargs[headers]` to the dict holding exactly the
Authorization entry. `ts` stands for `int(time.time())`. -/
def make_request_kwargs_from_app_v0 (ts : Int) (app : PyDict) (kwargs : Kwargs) : Kwargs :=
  let app_id := pyGetStr app "id"
  let token0 := pyGetStr app "token"
  let token :=
    if app_id = "" then token0
    else if token0 = "" then "MISSING_TOKEN_" ++ toString ts
    else token0
  { kwargs with headers := Option.some [("Authorization", "Bearer " ++ token)] }

/-- Observable calls made by the `FtApiHydra.py` request-kwarg shaping,
reified so theorems can state what the method does and does not invoke. -/
inductive HydraAction where
  | logMsg : HydraAction
  | sleepHalfSecond : HydraAction
  | callRefreshTokens : HydraAction
  | joinThreads : HydraAction
deriving DecidableEq, Repr

/-- Result of one execution of the body of
`FtApiHydra.make_request_kwargs_from_app` (`FtApiHydra.py` lines
88-120). The barrier wait (flag set, line 94) and the expired-token path
(refresh then recursive call, lines 111-113) end the body execution and
are surfaced as explicit outcomes. -/
inductive KwargsStep where
  | ok : Kwargs → KwargsStep
  | attributeError : KwargsStep
  | typeError : KwargsStep
  | systemExit : ℕ → KwargsStep
  | waitsForRefreshBarrier : KwargsStep
  | refreshThenRetry : KwargsStep
deriving DecidableEq, Repr

/-- Python `x <= now` for the expiry comparison at line 108: ints and
bools compare numerically; other scalars raise TypeError. -/
def pyLeInt : PyVal → Int → Option Bool
  | PyVal.vint n, m => Option.some (decide (n ≤ m))
  | PyVal.vbool b, m => Option.some (decide ((if b then (1 : Int) else 0) ≤ m))
  | _, _ => Option.none

/-- One execution of the body of the `FtApiHydra.py`
`make_request_kwargs_from_app`. `refresh_flag` is the value of
`self.refresh_tokens_flag` (`Option.none` when the attribute was never
assigned, in which case reading it raises AttributeError);
`emergency_stop` is whether `os.path.isfile(EMERGENCY_STOP_FILE)` holds;
`now` is `time.time()` (as an integer timestamp). -/
def make_request_kwargs_step (refresh_flag : Option Bool) (emergency_stop : Bool)
    (now : Int) (app : PyDict) (kwargs : Kwargs) : KwargsStep × List HydraAction :=
  let app_id := pyGetStr app "id"
  if app_id ≠ "" ∧ refresh_flag = Option.none then
    (KwargsStep.attributeError, [])
  else if app_id ≠ "" ∧ refresh_flag = Option.some true then
    (KwargsStep.waitsForRefreshBarrier, [HydraAction.sleepHalfSecond])
  else
    let token := pyGetStr app "access_token"
    let expires0 := pyGet app "token_expires_in" PyVal.vnone
    let hadExpires := truthy expires0
    let expiresVal := if hadExpires then expires0 else PyVal.vint (now + 10000)
    let preLog : List HydraAction := if hadExpires then [] else [HydraAction.logMsg]
    if app_id = "" then
      (KwargsStep.ok { kwargs with
          headers := Option.some [("Authorization", "Bearer " ++ token)] },
        preLog ++ [HydraAction.logMsg])
    else if emergency_stop then
      (KwargsStep.systemExit 42, preLog ++ [HydraAction.logMsg])
    else
      match pyLeInt expiresVal now with
      | Option.none => (KwargsStep.typeError, preLog)
      | Option.some expired =>
        if expired then
          (KwargsStep.refreshThenRetry,
            preLog ++ [HydraAction.logMsg, HydraAction.logMsg,
              HydraAction.callRefreshTokens, HydraAction.logMsg])
        else
          let token2 := if token = "" then "MISSING_TOKEN_" ++ toString now else token
          let tokenLog : List HydraAction := if token = "" then [HydraAction.logMsg] else []
          (KwargsStep.ok { kwargs with
              headers := Option.some [("Authorization", "Bearer " ++ token2)] },
            preLog ++ tokenLog)

/-- Value of the `refresh_tokens_flag` attribute right after
`FtApiHydra.__init__` (`FtApiHydra.py` lines 23-56): the constructor
assigns intra_login, intra_password, session and is_updated (and the
base-class fields) but never `refresh_tokens_flag`; the only assignments
to that attribute anywhere in the class are inside `refresh_tokens`
(lines 282 and 296). Reading an unassigned attribute raises
AttributeError, modelled by `Option.none`. -/
def init_refresh_tokens_flag : Option Bool := Option.none

/-- Modelled from the spec: the constant `EMERGENCY_STOP_FILE` consulted
at `FtApiHydra.py` line 105 is imported from a version of the ApiHydra
module that is not present under src (the in-src `ApiHydra.py` does not
define it); per the spec the emergency-stop marker is the file
`./SHUTDOWN_HYDRA`. Only the existence of the file matters to the
behaviour, which `make_request_kwargs_step` receives as its
`emergency_stop` argument. -/
def EMERGENCY_STOP_FILE : String := "./SHUTDOWN_HYDRA"

/-! ## Helper lemmas -/

lemma worker_go_spec (status : ℕ → ℕ) (max_retries : ℕ) :
    ∀ fuel retries, retries + fuel = max_retries + 2 → retries ≤ max_retries + 1 →
      worker_go status max_retries retries fuel ≠ WorkerResult.outOfFuel ∧
      attemptsOf (worker_go status max_retries retries fuel) ≤ max_retries + 1 := by
  intro fuel
  induction fuel with
  | zero => intro retries h1 h2; omega
  | succ f ih =>
    intro retries h1 h2
    by_cases hgt : max_retries < retries
    · simp only [worker_go, if_pos hgt]
      exact ⟨by simp, by simpa [attemptsOf] using h2⟩
    · by_cases hok : status retries = 200
      · simp only [worker_go, if_neg hgt, if_pos hok]
        exact ⟨by simp, by simp [attemptsOf]; omega⟩
      · simp only [worker_go, if_neg hgt, if_neg hok]
        exact ih (retries + 1) (by omega) (by omega)

/-- Under a permanently failing upstream the loop always exits through
the data-loss branch, after exactly `max_retries + 1` send attempts. -/
lemma worker_go_const_fail (c : ℕ) (hc : c ≠ 200) (max_retries : ℕ) :
    ∀ fuel retries, retries + fuel = max_retries + 2 → retries ≤ max_retries + 1 →
      worker_go (fun _ => c) max_retries retries fuel =
        WorkerResult.dataLoss (max_retries + 1) := by
  intro fuel
  induction fuel with
  | zero => intro retries h1 h2; omega
  | succ f ih =>
    intro retries h1 h2
    by_cases hgt : max_retries < retries
    · have : retries = max_retries + 1 := by omega
      simp [worker_go, hgt, this]
    · simp only [worker_go, if_neg hgt, if_neg hc]
      exact ih (retries + 1) (by omega) (by omega)

lemma mod_shift_eq_iff (N c i j : ℕ) (hN : 0 < N) (hi : i < N) (hj : j < N) :
    ((c + j) % N = i) ↔ (j = (i + N - c % N) % N) := by
  have hd : c % N < N := Nat.mod_lt _ hN
  have h1 : (c + j) % N = (c % N + j) % N := by
    rw [Nat.add_mod, Nat.mod_eq_of_lt hj]
  have h2 : (c % N + j) % N = if c % N + j < N then c % N + j else c % N + j - N := by
    split
    · next h => exact Nat.mod_eq_of_lt h
    · next h =>
        rw [Nat.mod_eq_sub_mod (by omega)]
        exact Nat.mod_eq_of_lt (by omega)
  have h3 : (i + N - c % N) % N = if c % N ≤ i then i - c % N else i + N - c % N := by
    split
    · next h =>
        rw [Nat.mod_eq_sub_mod (by omega)]
        have he : i + N - c % N - N = i - c % N := by omega
        rw [he]
        exact Nat.mod_eq_of_lt (by omega)
    · next h => exact Nat.mod_eq_of_lt (by omega)
  rw [h1, h2, h3]
  split
  · next h4 =>
      split
      · next h5 => omega
      · next h5 => omega
  · next h4 =>
      split
      · next h5 => omega
      · next h5 => omega

lemma countP_mod_range_block (N c i : ℕ) (hN : 0 < N) (hi : i < N) :
    (List.range N).countP (fun j => decide ((c + j) % N = i)) = 1 := by
  have hmem : (i + N - c % N) % N ∈ List.range N := by
    rw [List.mem_range]
    exact Nat.mod_lt _ hN
  have h1 : (List.range N).countP (fun j => decide ((c + j) % N = i)) =
      (List.range N).countP (fun j => j == (i + N - c % N) % N) := by
    apply List.countP_congr
    intro a ha
    have haN : a < N := List.mem_range.mp ha
    simp only [decide_eq_true_eq, beq_iff_eq]
    exact mod_shift_eq_iff N c i a hN hi haN
  rw [h1]
  exact List.count_eq_one_of_mem (List.nodup_range N) hmem

lemma countP_mod_range_add (N c i K : ℕ) (hN : 0 < N) (hi : i < N) :
    (List.range (N + K)).countP (fun j => decide ((c + j) % N = i)) =
      1 + (List.range K).countP (fun j => decide ((c + j) % N = i)) := by
  rw [List.range_add, List.countP_append, countP_mod_range_block N c i hN hi]
  congr 1
  rw [List.countP_map]
  apply List.countP_congr
  intro a _
  simp only [Function.comp_apply, decide_eq_true_eq]
  have h : c + (N + a) = c + a + N := by omega
  rw [h, Nat.add_mod_right]

lemma countP_mod_range_mul_add (N c i : ℕ) (hN : 0 < N) (hi : i < N) :
    ∀ q s, (List.range (q * N + s)).countP (fun j => decide ((c + j) % N = i)) =
      q + (List.range s).countP (fun j => decide ((c + j) % N = i)) := by
  intro q
  induction q with
  | zero => intro s; simp
  | succ t ih =>
    intro s
    have h : (t + 1) * N + s = N + (t * N + s) := by ring
    rw [h, countP_mod_range_add N c i (t * N + s) hN hi, ih s]
    omega

lemma countP_mod_range_le_one (N c i s : ℕ) (hN : 0 < N) (hi : i < N) (hs : s ≤ N) :
    (List.range s).countP (fun j => decide ((c + j) % N = i)) ≤ 1 := by
  calc (List.range s).countP (fun j => decide ((c + j) % N = i))
      ≤ (List.range N).countP (fun j => decide ((c + j) % N = i)) :=
        (List.range_sublist.mpr hs).countP_le _
    _ = 1 := countP_mod_range_block N c i hN hi

lemma countP_mod_range_floor_or_ceil (N c i K : ℕ) (hN : 0 < N) (hi : i < N) :
    (List.range K).countP (fun j => decide ((c + j) % N = i)) = K / N ∨
    (List.range K).countP (fun j => decide ((c + j) % N = i)) = (K + N - 1) / N := by
  obtain ⟨q, s, hK, hs⟩ : ∃ q s, K = q * N + s ∧ s < N :=
    ⟨K / N, K % N, by rw [Nat.mul_comm]; exact (Nat.div_add_mod K N).symm, Nat.mod_lt _ hN⟩
  subst hK
  rw [countP_mod_range_mul_add N c i hN hi q s]
  have hfloor : (q * N + s) / N = q := by
    rw [Nat.mul_comm q N, Nat.mul_add_div hN, Nat.div_eq_of_lt hs]
    omega
  rcases Nat.eq_zero_or_pos s with h0 | hpos
  · subst h0
    left
    rw [hfloor]
    simp
  · have hle := countP_mod_range_le_one N c i s hN hi (Nat.le_of_lt hs)
    rcases Nat.le_one_iff_eq_zero_or_eq_one.mp hle with hc | hc
    · left
      rw [hc, hfloor]
      omega
    · right
      rw [hc]
      have hceil : (q * N + s + N - 1) / N = q + 1 := by
        have he : q * N + s + N - 1 = N * (q + 1) + (s - 1) := by
          rw [Nat.mul_add, Nat.mul_one, Nat.mul_comm N q]
          omega
        rw [he, Nat.mul_add_div hN, Nat.div_eq_of_lt (by omega)]
      omega

lemma runDispatch_eq (keys : List String) :
    ∀ K c, runDispatch ⟨keys, c⟩ K =
      (List.range K).map (fun j => keys.getD ((c + j) % keys.length) "") := by
  intro K
  induction K with
  | zero => intro c; rfl
  | succ t ih =>
    intro c
    show keys.getD (c % keys.length) "" :: runDispatch ⟨keys, c + 1⟩ t = _
    have h2 : ∀ a ∈ List.range t,
        keys.getD ((c + 1 + a) % keys.length) "" =
        ((fun j => keys.getD ((c + j) % keys.length) "") ∘ Nat.succ) a := by
      intro a _
      simp only [Function.comp_apply]
      have h : c + 1 + a = c + Nat.succ a := by omega
      rw [h]
    calc keys.getD (c % keys.length) "" :: runDispatch ⟨keys, c + 1⟩ t
        = keys.getD (c % keys.length) "" ::
            List.map (fun j => keys.getD ((c + 1 + j) % keys.length) "") (List.range t) := by
          rw [ih (c + 1)]
      _ = ((fun j => keys.getD ((c + j) % keys.length) "") 0) ::
            List.map ((fun j => keys.getD ((c + j) % keys.length) "") ∘ Nat.succ)
              (List.range t) := by
          rw [List.map_congr_left h2]
          simp
      _ = List.map (fun j => keys.getD ((c + j) % keys.length) "") (List.range (t + 1)) := by
          rw [List.range_succ_eq_map, List.map_cons, List.map_map]

lemma sortByKey_sorted {α : Type} (l : List (String × α)) :
    List.Sorted keyLe (sortByKey l) :=
  List.sorted_insertionSort keyLe l

lemma sortByKey_perm {α : Type} (l : List (String × α)) : List.Perm (sortByKey l) l :=
  List.perm_insertionSort keyLe l

lemma sortByKey_idem {α : Type} (l : List (String × α)) :
    sortByKey (sortByKey l) = sortByKey l :=
  (sortByKey_sorted l).insertionSort_eq

lemma dumpEntry_idem (p : String × PyDict) : dumpEntry (dumpEntry p) = dumpEntry p := by
  simp [dumpEntry, dumpRecord, sortByKey_idem]

lemma alookup_map_dumpEntry (k : String) (l : Fleet) :
    alookup k (l.map dumpEntry) = (alookup k l).map dumpRecord := by
  induction l with
  | nil => rfl
  | cons p t ih =>
    by_cases h : p.1 = k
    · simp [alookup, dumpEntry, h]
    · simp [alookup, dumpEntry, h, ih]

lemma alookup_some_iff_mem {α : Type} (k : String) (v : α) (l : List (String × α))
    (hnd : (l.map Prod.fst).Nodup) :
    alookup k l = Option.some v ↔ (k, v) ∈ l := by
  induction l with
  | nil => simp [alookup]
  | cons p t ih =>
    obtain ⟨a, b⟩ := p
    simp only [List.map_cons, List.nodup_cons] at hnd
    rw [alookup]
    by_cases h : a = k
    · subst h
      rw [if_pos rfl, List.mem_cons]
      constructor
      · intro hv
        left
        have hv2 : b = v := Option.some.inj hv
        rw [hv2]
      · rintro (hv | hv)
        · simp only [Prod.mk.injEq, true_and] at hv
          rw [hv]
        · exact absurd (List.mem_map_of_mem Prod.fst hv) hnd.1
    · rw [if_neg h, List.mem_cons, ih hnd.2]
      constructor
      · intro hv
        right
        exact hv
      · rintro (hv | hv)
        · simp only [Prod.mk.injEq] at hv
          exact absurd hv.1.symm h
        · exact hv

lemma alookup_none_iff {α : Type} (k : String) (l : List (String × α)) :
    alookup k l = Option.none ↔ k ∉ l.map Prod.fst := by
  induction l with
  | nil => simp [alookup]
  | cons p t ih =>
    by_cases h : p.1 = k
    · simp [alookup, h]
    · simp only [alookup, if_neg h, List.map_cons, List.mem_cons]
      rw [ih]
      constructor
      · intro hv hc
        rcases hc with hc | hc
        · exact h hc.symm
        · exact hv hc
      · intro hv
        intro hc
        exact hv (Or.inr hc)

lemma alookup_eq_of_perm {α : Type} (k : String) (l₁ l₂ : List (String × α))
    (hp : List.Perm l₁ l₂) (hnd : (l₁.map Prod.fst).Nodup) :
    alookup k l₁ = alookup k l₂ := by
  have hnd₂ : (l₂.map Prod.fst).Nodup := ((hp.map Prod.fst).nodup_iff).mp hnd
  cases hv : alookup k l₁ with
  | some v =>
    have hm : (k, v) ∈ l₁ := (alookup_some_iff_mem k v l₁ hnd).mp hv
    exact ((alookup_some_iff_mem k v l₂ hnd₂).mpr (hp.mem_iff.mp hm)).symm
  | none =>
    have hm : k ∉ l₁.map Prod.fst := (alookup_none_iff k l₁).mp hv
    refine ((alookup_none_iff k l₂).mpr ?_).symm
    intro hc
    exact hm ((hp.map Prod.fst).mem_iff.mpr hc)

lemma dumpFleet_map_self (fleet : Fleet) :
    (sortByKey (fleet.map dumpEntry)).map dumpEntry = sortByKey (fleet.map dumpEntry) := by
  have hpt : ∀ p ∈ sortByKey (fleet.map dumpEntry), dumpEntry p = id p := by
    intro p hp
    have hp' : p ∈ fleet.map dumpEntry := (sortByKey_perm _).subset hp
    rcases List.mem_map.mp hp' with ⟨q, _, hq⟩
    rw [← hq, dumpEntry_idem]
    rfl
  rw [List.map_congr_left hpt, List.map_id]

lemma sorted_map_dumpEntry (l : Fleet) (h : List.Sorted keyLe l) :
    List.Sorted (keyLe (α := PyDict)) (l.map dumpEntry) :=
  List.Pairwise.map dumpEntry (fun _ _ hab => hab) h

lemma dumpFleet_idem (fleet : Fleet) : dumpFleet (dumpFleet fleet) = dumpFleet fleet := by
  show sortByKey ((sortByKey (fleet.map dumpEntry)).map dumpEntry) = _
  rw [dumpFleet_map_self, sortByKey_idem]
  rfl

lemma step_ok_headers (flag : Option Bool) (stop : Bool) (now : Int)
    (app : PyDict) (kwargs kw2 : Kwargs)
    (h : (make_request_kwargs_step flag stop now app kwargs).1 = KwargsStep.ok kw2) :
    (∃ token, kw2.headers = Option.some [("Authorization", "Bearer " ++ token)]) ∧
    kw2.rest = kwargs.rest := by
  simp only [make_request_kwargs_step] at h
  split at h
  · exact absurd h (by simp)
  · split at h
    · exact absurd h (by simp)
    · split at h
      · simp only [KwargsStep.ok.injEq] at h
        subst h
        exact ⟨⟨_, rfl⟩, rfl⟩
      · split at h
        · exact absurd h (by simp)
        · split at h
          · exact absurd h (by simp)
          · split at h
            · exact absurd h (by simp)
            · simp only [KwargsStep.ok.injEq] at h
              subst h
              exact ⟨⟨_, rfl⟩, rfl⟩

/-! ## Claim theorems -/

/-- C1: the claim says the submit path sleeps for
`max(min_request_delay, 1/(requests_per_second*N))`, never below the
`min_request_delay` floor. The code sleeps
`min((1/requests_per_second)/N, min_request_delay)` instead. At the
configuration used by `main.py` (`requests_per_second = 1.9`,
`min_request_delay = 0.03`) with a fleet of 100 apps the code sleeps
1/190 s, strictly below the floor and below the claimed value 3/100 s:
`min` and `max` are swapped relative to the name of the parameter itself. -/
theorem submit_sleep_below_floor :
    submit_sleep (19/10) (3/100) 100 = 1/190 ∧
    submit_sleep_spec (19/10) (3/100) 100 = 3/100 ∧
    submit_sleep (19/10) (3/100) 100 < submit_sleep_spec (19/10) (3/100) 100 := by
  refine ⟨?_, ?_, ?_⟩ <;> norm_num [submit_sleep, submit_sleep_spec, min_def, max_def]

/-- C2: the claim says that on a non-200 token reply `refresh_tokens`
completes for the app without raising, recording an empty access token
and a -1 expiry. In the code, `get_token` returns the fallback dict with
key "token_expires_in", but `refresh_tokens` then subscripts
`token_resp[expires_in]` (line 293), which raises `KeyError` for that
dict: for an app with non-empty uid and secret and a 500 reply, the
refresh aborts with the exception instead of recording the fields. -/
theorem refresh_tokens_non200_keyerror :
    refresh_tokens 1000 (fun _ => ⟨500, []⟩)
      [("a", [("uid", PyVal.vstr "u"), ("secret", PyVal.vstr "s")])] =
    Except.error "KeyError: expires_in" := by
  rfl

/-- C3 (counterexample): with `max_retries = 10` and an upstream that
answers 404 on every attempt, the worker performs all
`max_retries + 1 = 11` send attempts and exits through the data-loss
branch — it does not end once the retry counter exceeds 5, contradicting
the claimed early abandonment of permanent 404s. -/
theorem worker_404_no_early_exit :
    worker_run (fun _ => 404) 10 = WorkerResult.dataLoss 11 ∧
    ¬ attemptsOf (worker_run (fun _ => 404) 10) ≤ 7 := by
  constructor
  · rfl
  · decide

/-- C3 (amended): the retry loops of `_get`/`_post` contain no 404
special case: a request whose upstream always answers 404 is treated
like any other non-200 response and consumes the entire retry budget,
performing `max_retries + 1` send attempts before ending with the
data-loss log. -/
theorem worker_404_consumes_full_budget (max_retries : ℕ) :
    worker_run (fun _ => 404) max_retries = WorkerResult.dataLoss (max_retries + 1) :=
  worker_go_const_fail 404 (by omega) max_retries (max_retries + 2) 0 (by omega) (by omega)

/-- C4: the claim says the tmpfs fallback file receives the same
serialized response records as the primary file would have. At line 145
the fallback block executes `json.dump(self.apps, ...)`: it writes the
credential fleet, not the serialized `(url, body)` response pairs. With
one response and a one-app fleet, the fallback document is the apps
object and differs from the primary document. -/
theorem serialize_responses_fallback_wrong_payload :
    serialize_responses_content true [("https://u", "b")]
        [("42", [("uid", PyVal.vstr "u")])] =
      appsJson [("42", [("uid", PyVal.vstr "u")])] ∧
    appsJson [("42", [("uid", PyVal.vstr "u")])] ≠
      responsesJson [("https://u", "b")] := by
  constructor
  · rfl
  · intro h
    exact Json.noConfusion h

/-- C6: the retry loop of every worker terminates and performs at most
`max_retries + 1` send attempts before either depositing a response
(`delivered`) or ending with the data-loss log (`dataLoss`), for every
sequence of upstream statuses. -/
theorem worker_bounded_retries (status : ℕ → ℕ) (max_retries : ℕ) :
    worker_run status max_retries ≠ WorkerResult.outOfFuel ∧
    attemptsOf (worker_run status max_retries) ≤ max_retries + 1 :=
  worker_go_spec status max_retries (max_retries + 2) 0 (by omega) (by omega)

/-- C5 (counterexample): a caller-supplied header other than
Authorization is not preserved by the request-kwarg shaping: with the
caller passing the headers entry X-Custom, both implementations return a
headers dict holding exactly the Authorization entry, and the supplied
pair is absent from it. -/
theorem auth_header_drops_caller_headers :
    (make_request_kwargs_step (Option.some false) false 1000
        [("id", PyVal.vstr "a"), ("access_token", PyVal.vstr "tok"),
         ("token_expires_in", PyVal.vint 2000)]
        ⟨Option.some [("X-Custom", "v")], []⟩).1 =
      KwargsStep.ok ⟨Option.some [("Authorization", "Bearer tok")], []⟩ ∧
    make_request_kwargs_from_app_v0 7
        [("id", PyVal.vstr "a"), ("token", PyVal.vstr "tok")]
        ⟨Option.some [("X-Custom", "v")], []⟩ =
      ⟨Option.some [("Authorization", "Bearer tok")], []⟩ ∧
    ("X-Custom", "v") ∉ [("Authorization", "Bearer tok")] := by
  refine ⟨by decide, by decide, by decide⟩

/-- C5 (amended): the request-kwarg shaping sets the headers dict to
exactly the single Authorization Bearer entry — discarding any
caller-supplied headers — while leaving the non-header kwargs
unchanged. This holds for the ApiHydra.py implementation on all inputs
and for every execution of the FtApiHydra.py body that returns
kwargs. -/
theorem auth_header_overwrites (ts now : Int) (flag : Option Bool) (stop : Bool)
    (app : PyDict) (kwargs kw2 : Kwargs)
    (h : (make_request_kwargs_step flag stop now app kwargs).1 = KwargsStep.ok kw2) :
    (∃ token, kw2.headers = Option.some [("Authorization", "Bearer " ++ token)]) ∧
    kw2.rest = kwargs.rest ∧
    (∃ token, (make_request_kwargs_from_app_v0 ts app kwargs).headers =
        Option.some [("Authorization", "Bearer " ++ token)]) ∧
    (make_request_kwargs_from_app_v0 ts app kwargs).rest = kwargs.rest :=
  ⟨(step_ok_headers flag stop now app kwargs kw2 h).1,
   (step_ok_headers flag stop now app kwargs kw2 h).2, ⟨_, rfl⟩, rfl⟩

/-- C5 (witness): the amended theorem applied at a concrete ok-returning
execution. -/
theorem auth_header_overwrites_witness :
    ((make_request_kwargs_step (Option.some false) false 1000
        [("id", PyVal.vstr "a"), ("access_token", PyVal.vstr "tok"),
         ("token_expires_in", PyVal.vint 2000)]
        ⟨Option.none, [("params", PyVal.vstr "x")]⟩).1 =
      KwargsStep.ok ⟨Option.some [("Authorization", "Bearer tok")],
        [("params", PyVal.vstr "x")]⟩) ∧
    ((∃ token, (⟨Option.some [("Authorization", "Bearer tok")],
        [("params", PyVal.vstr "x")]⟩ : Kwargs).headers =
        Option.some [("Authorization", "Bearer " ++ token)]) ∧
     (⟨Option.some [("Authorization", "Bearer tok")],
        [("params", PyVal.vstr "x")]⟩ : Kwargs).rest =
       (⟨Option.none, [("params", PyVal.vstr "x")]⟩ : Kwargs).rest ∧
     (∃ token, (make_request_kwargs_from_app_v0 7
        [("id", PyVal.vstr "a"), ("access_token", PyVal.vstr "tok"),
         ("token_expires_in", PyVal.vint 2000)]
        ⟨Option.none, [("params", PyVal.vstr "x")]⟩).headers =
        Option.some [("Authorization", "Bearer " ++ token)]) ∧
     (make_request_kwargs_from_app_v0 7
        [("id", PyVal.vstr "a"), ("access_token", PyVal.vstr "tok"),
         ("token_expires_in", PyVal.vint 2000)]
        ⟨Option.none, [("params", PyVal.vstr "x")]⟩).rest =
       (⟨Option.none, [("params", PyVal.vstr "x")]⟩ : Kwargs).rest) :=
  ⟨by decide,
   auth_header_overwrites 7 1000 (Option.some false) false
     [("id", PyVal.vstr "a"), ("access_token", PyVal.vstr "tok"),
      ("token_expires_in", PyVal.vint 2000)]
     ⟨Option.none, [("params", PyVal.vstr "x")]⟩
     ⟨Option.some [("Authorization", "Bearer tok")], [("params", PyVal.vstr "x")]⟩
     (by decide)⟩

/-- C7: with a fixed non-empty fleet whose key order does not change,
each `get_next_app` call returns the app at key index
`cursor mod N` and increments the cursor by one; consequently over any
`K ≥ N` consecutive calls each app is selected either `⌊K/N⌋` or
`⌈K/N⌉` times (the ceiling written `(K + N - 1) / N`). -/
theorem get_next_app_round_robin (keys : List String) (c K i : ℕ)
    (hnd : keys.Nodup) (hi : i < keys.length) (hK : keys.length ≤ K) :
    (get_next_app ⟨keys, c⟩).2.app_idx = c + 1 ∧
    (get_next_app ⟨keys, c⟩).1 = keys.getD (c % keys.length) "" ∧
    ((runDispatch ⟨keys, c⟩ K).count (keys.getD i "") = K / keys.length ∨
     (runDispatch ⟨keys, c⟩ K).count (keys.getD i "") =
       (K + keys.length - 1) / keys.length) := by
  have hN : 0 < keys.length := Nat.lt_of_le_of_lt (Nat.zero_le i) hi
  refine ⟨rfl, rfl, ?_⟩
  have hcount : (runDispatch ⟨keys, c⟩ K).count (keys.getD i "") =
      (List.range K).countP (fun j => decide ((c + j) % keys.length = i)) := by
    rw [runDispatch_eq keys K c]
    show (List.countP (· == keys.getD i "")
        ((List.range K).map (fun j => keys.getD ((c + j) % keys.length) ""))) = _
    rw [List.countP_map]
    apply List.countP_congr
    intro a _
    have hm : (c + a) % keys.length < keys.length := Nat.mod_lt _ hN
    simp only [Function.comp_apply, beq_iff_eq, decide_eq_true_eq]
    rw [List.getD_eq_getElem keys "" hm, List.getD_eq_getElem keys "" hi]
    exact hnd.getElem_inj_iff
  rw [hcount]
  exact countP_mod_range_floor_or_ceil keys.length c i K hN hi

/-- C7 (witness): three apps, cursor 1, four calls; the selections are
b, c, a, b and app a is picked 4 / 3 = 1 time. -/
theorem get_next_app_round_robin_witness :
    ((["a", "b", "c"] : List String).Nodup ∧
      0 < (["a", "b", "c"] : List String).length ∧
      (["a", "b", "c"] : List String).length ≤ 4) ∧
    ((get_next_app ⟨["a", "b", "c"], 1⟩).2.app_idx = 1 + 1 ∧
     (get_next_app ⟨["a", "b", "c"], 1⟩).1 =
       (["a", "b", "c"] : List String).getD (1 % (["a", "b", "c"] : List String).length) "" ∧
     ((runDispatch ⟨["a", "b", "c"], 1⟩ 4).count
         ((["a", "b", "c"] : List String).getD 0 "") =
        4 / (["a", "b", "c"] : List String).length ∨
      (runDispatch ⟨["a", "b", "c"], 1⟩ 4).count
         ((["a", "b", "c"] : List String).getD 0 "") =
        (4 + (["a", "b", "c"] : List String).length - 1) /
          (["a", "b", "c"] : List String).length)) :=
  ⟨⟨by decide, by decide, by decide⟩,
   get_next_app_round_robin ["a", "b", "c"] 1 4 0 (by decide) (by decide) (by decide)⟩

/-- C8: saving the credentials file then loading it back yields a fleet
equal to the original as a Python mapping: the loaded fleet is a
permutation of the original entries (with the fields of each record
key-sorted, which Python dict equality ignores), its canonical
key-sorted form is unchanged, and — given the fleet invariant of unique
app ids — every app-id lookup returns the original record up to field
order. -/
theorem credentials_round_trip (fleet : Fleet)
    (hnd : (fleet.map Prod.fst).Nodup) :
    List.Perm (credentialsRoundTrip fleet) (fleet.map dumpEntry) ∧
    dumpFleet (credentialsRoundTrip fleet) = dumpFleet fleet ∧
    ∀ app_id, alookup app_id (credentialsRoundTrip fleet) =
      (alookup app_id fleet).map dumpRecord := by
  refine ⟨sortByKey_perm _, dumpFleet_idem fleet, ?_⟩
  intro app_id
  have hnd2 : ((fleet.map dumpEntry).map Prod.fst).Nodup := by
    rw [List.map_map]
    exact hnd
  have hndS : ((sortByKey (fleet.map dumpEntry)).map Prod.fst).Nodup :=
    (((sortByKey_perm (fleet.map dumpEntry)).map Prod.fst).nodup_iff).mpr hnd2
  calc alookup app_id (credentialsRoundTrip fleet)
      = alookup app_id (fleet.map dumpEntry) :=
        alookup_eq_of_perm app_id _ _ (sortByKey_perm _) hndS
    _ = (alookup app_id fleet).map dumpRecord := alookup_map_dumpEntry app_id fleet

/-- C8 (witness): the round trip applied to a two-app fleet with unique
ids. -/
theorem credentials_round_trip_witness :
    (([("b", [("uid", PyVal.vstr "u")]), ("a", [])] : Fleet).map Prod.fst).Nodup ∧
    (List.Perm (credentialsRoundTrip [("b", [("uid", PyVal.vstr "u")]), ("a", [])])
        (([("b", [("uid", PyVal.vstr "u")]), ("a", [])] : Fleet).map dumpEntry) ∧
     dumpFleet (credentialsRoundTrip [("b", [("uid", PyVal.vstr "u")]), ("a", [])]) =
       dumpFleet [("b", [("uid", PyVal.vstr "u")]), ("a", [])] ∧
     ∀ app_id,
       alookup app_id (credentialsRoundTrip [("b", [("uid", PyVal.vstr "u")]), ("a", [])]) =
         (alookup app_id ([("b", [("uid", PyVal.vstr "u")]), ("a", [])] : Fleet)).map
           dumpRecord) :=
  ⟨by decide, credentials_round_trip [("b", [("uid", PyVal.vstr "u")]), ("a", [])] (by decide)⟩

/-- C9 (counterexample): with the emergency-stop marker present, a
worker-state check for an identified app raises SystemExit(42) with a
single log call as its only other effect: no thread join is performed,
refuting the claim that the check joins outstanding work before the
process exits. -/
theorem emergency_stop_no_join :
    make_request_kwargs_step (Option.some false) true 1000
        [("id", PyVal.vstr "a"), ("access_token", PyVal.vstr "t"),
         ("token_expires_in", PyVal.vint 2000)] ⟨Option.none, []⟩ =
      (KwargsStep.systemExit 42, [HydraAction.logMsg]) ∧
    HydraAction.joinThreads ∉
      (make_request_kwargs_step (Option.some false) true 1000
        [("id", PyVal.vstr "a"), ("access_token", PyVal.vstr "t"),
         ("token_expires_in", PyVal.vint 2000)] ⟨Option.none, []⟩).2 := by
  refine ⟨by decide, by decide⟩

/-- C9 (amended): the emergency-stop check lives in the worker-side
request-kwarg shaping of FtApiHydra.py (lines 104-107), not in a
submit-side admission hook. Whenever the marker file exists, the next
execution of that check for an app with non-empty id (with the refresh
flag assigned False) raises SystemExit with code 42 and performs no
join of outstanding threads; since the raise happens on a worker
thread, it ends only that thread. -/
theorem emergency_stop_raises_42 (now : Int) (app : PyDict) (kwargs : Kwargs)
    (h : pyGetStr app "id" ≠ "") :
    (make_request_kwargs_step (Option.some false) true now app kwargs).1 =
      KwargsStep.systemExit 42 ∧
    HydraAction.joinThreads ∉
      (make_request_kwargs_step (Option.some false) true now app kwargs).2 := by
  have hsplit : make_request_kwargs_step (Option.some false) true now app kwargs =
      (KwargsStep.systemExit 42,
        (if truthy (pyGet app "token_expires_in" PyVal.vnone) then ([] : List HydraAction)
         else [HydraAction.logMsg]) ++ [HydraAction.logMsg]) := by
    simp [make_request_kwargs_step, h]
  rw [hsplit]
  constructor
  · rfl
  · by_cases hc : truthy (pyGet app "token_expires_in" PyVal.vnone) <;> simp [hc]

/-- C9 (witness): the amended theorem applied at a concrete state with
the marker file present. -/
theorem emergency_stop_raises_42_witness :
    pyGetStr [("id", PyVal.vstr "a")] "id" ≠ "" ∧
    ((make_request_kwargs_step (Option.some false) true 500
        [("id", PyVal.vstr "a")] ⟨Option.none, []⟩).1 = KwargsStep.systemExit 42 ∧
     HydraAction.joinThreads ∉
       (make_request_kwargs_step (Option.some false) true 500
         [("id", PyVal.vstr "a")] ⟨Option.none, []⟩).2) :=
  ⟨by decide,
   emergency_stop_raises_42 500 [("id", PyVal.vstr "a")] ⟨Option.none, []⟩ (by decide)⟩

/-- C10: on a freshly constructed FtApiHydra (FtApiHydra.py) on which
`refresh_tokens` has never run, every request attempt that reaches
`make_request_kwargs_from_app` with an app of non-empty id raises
AttributeError: the `refresh_tokens_flag` attribute read at line 93 is
assigned only inside `refresh_tokens`, so a successful request requires
a prior `refresh_tokens` call. -/
theorem fresh_hydra_request_raises (emergency_stop : Bool) (now : Int)
    (app : PyDict) (kwargs : Kwargs) (h : pyGetStr app "id" ≠ "") :
    (make_request_kwargs_step init_refresh_tokens_flag emergency_stop now app kwargs).1 =
      KwargsStep.attributeError := by
  simp [make_request_kwargs_step, init_refresh_tokens_flag, h]

/-- C10 (witness): the theorem applied to a fresh instance and an app
with id "a". -/
theorem fresh_hydra_request_raises_witness :
    pyGetStr [("id", PyVal.vstr "a")] "id" ≠ "" ∧
    (make_request_kwargs_step init_refresh_tokens_flag false 0
        [("id", PyVal.vstr "a")] ⟨Option.none, []⟩).1 = KwargsStep.attributeError :=
  ⟨by decide,
   fresh_hydra_request_raises false 0 [("id", PyVal.vstr "a")] ⟨Option.none, []⟩ (by decide)⟩

end ApiHydra
